import Mathlib

/-!
Verification of the request-authentication module of the orderly
repository (`src/orderly-auth.js`): canonical message building, ed25519
request signing, base64url signature encoding, content-type selection and
header/body assembly, as a shallow embedding in Lean.

Bytes are modelled as `Nat` values below 256; JavaScript strings as Lean
`String`; the wall-clock timestamp captured by `Date.now()` is an explicit
`Nat` parameter; the external ed25519 primitive (the function `sign` of
the npm package noble ed25519, not part of this repository) is an explicit
function parameter returning `Except` to model its possible rejection of
bad keys.
-/

namespace Orderly

/-- The base64url alphabet (RFC 4648 §5), as produced by the Node
method `Buffer.toString("base64url")`. -/
def b64urlAlphabet : List Char :=
  "ABCDEFGHIJKLMNOPQRSTUVWXYZabcdefghijklmnopqrstuvwxyz0123456789-_".toList

/-- The base64url digit character for a 6-bit value. -/
def b64urlChar (n : Nat) : Char := b64urlAlphabet.getD n 'A'

/-- Inverse of `b64urlChar` on the alphabet: the 6-bit value of a digit. -/
def b64urlIdx (c : Char) : Nat :=
  ((b64urlAlphabet.indexOf? c).getD 0)

/-- Unpadded base64url encoding of a byte sequence, as produced by the Node
method `Buffer.from(bytes).toString("base64url")`: groups of three bytes become
four digits; a trailing group of one or two bytes becomes two or three
digits and no `=` padding is emitted. -/
def base64urlEncode : List Nat → List Char
  | [] => []
  | [b1] => [b64urlChar (b1 / 4), b64urlChar (b1 % 4 * 16)]
  | [b1, b2] =>
      [b64urlChar (b1 / 4), b64urlChar (b1 % 4 * 16 + b2 / 16),
       b64urlChar (b2 % 16 * 4)]
  | b1 :: b2 :: b3 :: rest =>
      b64urlChar (b1 / 4) :: b64urlChar (b1 % 4 * 16 + b2 / 16) ::
      b64urlChar (b2 % 16 * 4 + b3 / 64) :: b64urlChar (b3 % 64) ::
      base64urlEncode rest

/-- Unpadded base64url decoding back to bytes (the inverse grouping of
`base64urlEncode`; a dangling single digit carries no whole byte). -/
def base64urlDecode : List Char → List Nat
  | [] => []
  | [_] => []
  | [c1, c2] => [b64urlIdx c1 * 4 + b64urlIdx c2 / 16]
  | [c1, c2, c3] =>
      [b64urlIdx c1 * 4 + b64urlIdx c2 / 16,
       b64urlIdx c2 % 16 * 16 + b64urlIdx c3 / 4]
  | c1 :: c2 :: c3 :: c4 :: rest =>
      (b64urlIdx c1 * 4 + b64urlIdx c2 / 16) ::
      (b64urlIdx c2 % 16 * 16 + b64urlIdx c3 / 4) ::
      (b64urlIdx c3 % 4 * 64 + b64urlIdx c4) ::
      base64urlDecode rest

/-- The JavaScript method `String.prototype.toUpperCase()` on the ASCII method
strings used here: upper-case every character. -/
def jsToUpper (s : String) : String := String.mk (s.data.map Char.toUpper)

/-- A lowercase hexadecimal digit. -/
def hexDigit (n : Nat) : Char :=
  "0123456789abcdef".toList.getD n '0'

/-- Four lowercase hex digits, as in a JavaScript `\uXXXX` escape. -/
def hex4 (n : Nat) : String :=
  String.mk [hexDigit (n / 4096 % 16), hexDigit (n / 256 % 16),
    hexDigit (n / 16 % 16), hexDigit (n % 16)]

/-- Escaping of a single character inside a string literal, as performed
by `JSON.stringify`. -/
def jsonEscapeChar (c : Char) : String :=
  if c = '"' then "\\\""
  else if c = '\\' then "\\\\"
  else if c = '\n' then "\\n"
  else if c = '\r' then "\\r"
  else if c = '\t' then "\\t"
  else if c.toNat = 8 then "\\b"
  else if c.toNat = 12 then "\\f"
  else if c.toNat < 32 then "\\u" ++ hex4 c.toNat
  else String.singleton c

/-- A JavaScript JSON-serializable value (numbers restricted to the
integers the scripts actually send). -/
inductive Json where
  | null : Json
  | bool (b : Bool) : Json
  | num (n : Int) : Json
  | str (s : String) : Json
  | arr (elems : List Json) : Json
  | obj (fields : List (String × Json)) : Json

mutual

/-- Rendering of a JSON value by `JSON.stringify` (no spacing, insertion order of
object fields preserved, as in JavaScript). -/
def Json.stringify : Json → String
  | .null => "null"
  | .bool true => "true"
  | .bool false => "false"
  | .num n => toString n
  | .str s => "\"" ++ String.join (s.toList.map jsonEscapeChar) ++ "\""
  | .arr elems => "[" ++ Json.stringifyElems elems ++ "]"
  | .obj fields => "\x7b" ++ Json.stringifyFields fields ++ "\x7d"

/-- Comma-joined renderings of array elements. -/
def Json.stringifyElems : List Json → String
  | [] => ""
  | [x] => Json.stringify x
  | x :: y :: rest => Json.stringify x ++ "," ++ Json.stringifyElems (y :: rest)

/-- Comma-joined `"key":value` renderings of object fields. -/
def Json.stringifyFields : List (String × Json) → String
  | [] => ""
  | [(k, v)] =>
      "\"" ++ String.join (k.toList.map jsonEscapeChar) ++ "\":" ++
        Json.stringify v
  | (k, v) :: y :: rest =>
      "\"" ++ String.join (k.toList.map jsonEscapeChar) ++ "\":" ++
        Json.stringify v ++ "," ++ Json.stringifyFields (y :: rest)

end

/-- The `body` argument of `createAuthenticatedRequest`: absent
(`null`/`undefined`), a string, or a JSON-serializable object. -/
inductive BodyArg where
  | none : BodyArg
  | str (s : String) : BodyArg
  | obj (j : Json) : BodyArg

/-- JavaScript truthiness of a `body` argument (`if (body)`):
`null`/`undefined` and the empty string are falsy, objects are truthy. -/
def BodyArg.truthy : BodyArg → Bool
  | .none => false
  | .str s => s ≠ ""
  | .obj _ => true

/-- Lines 79–82 of `orderly-auth.js`: the transmitted body string — `""`
when the argument is falsy, otherwise the string itself (pass-through) or
`JSON.stringify` of the object. -/
def serializeBody (body : BodyArg) : String :=
  if body.truthy then
    match body with
    | .none => ""
    | .str s => s
    | .obj j => j.stringify
  else ""

/-- Embeds `normalizeRequestMessage` (lines 36–38): template-literal
concatenation of the decimal timestamp, the method as given, the path and
the body, with no separators. -/
def normalizeRequestMessage (timestamp : Nat) (method : String)
    (path : String) (body : String := "") : String :=
  toString timestamp ++ method ++ path ++ body

/-- Embeds `getContentType` (lines 47–53): form-urlencoded for GET/DELETE
(after upper-casing), JSON otherwise. -/
def getContentType (method : String) : String :=
  let upperMethod := jsToUpper method
  if upperMethod = "GET" ∨ upperMethod = "DELETE" then
    "application/x-www-form-urlencoded"
  else
    "application/json"

/-- Embeds `new TextEncoder().encode(message)`: the UTF-8 bytes of a string
(via the standard per-character UTF-8 encoding, as `String.toUTF8`). -/
def strBytes (s : String) : List Nat :=
  s.data.flatMap (fun c => (String.utf8EncodeChar c).map UInt8.toNat)

/-- The type of the external ed25519 signing primitive
(the function `sign(messageBytes, privateKey)` of the npm package
noble ed25519, outside this repository): message bytes and private-key bytes to either
signature bytes or a thrown error. -/
abbrev SignPrim := List Nat → List Nat → Except String (List Nat)

/-- Embeds `createOrderlySignature` (lines 18–24): UTF-8 encode the message,
sign it with the ed25519 primitive (propagating any failure), and render
the signature bytes in unpadded base64url. -/
def createOrderlySignature (signPrim : SignPrim) (message : String)
    (privateKey : List Nat) : Except String String := do
  let messageBytes := strBytes message
  let signature ← signPrim messageBytes privateKey
  return String.mk (base64urlEncode signature)

/-- The fetch request configuration returned by
`createAuthenticatedRequest`: method, header list, optional body. -/
structure RequestConfig where
  method : String
  headers : List (String × String)
  body : Option String
deriving Repr, DecidableEq

/-- Lines 85–90 of `orderly-auth.js`: the canonical message that gets
signed — `normalizeRequestMessage` applied to the captured timestamp, the
upper-cased method, the path, and the serialized body string. -/
def signedMessage (timestamp : Nat) (method : String) (path : String)
    (body : BodyArg) : String :=
  normalizeRequestMessage timestamp (jsToUpper method) path
    (serializeBody body)

/-- Embeds `createAuthenticatedRequest` (lines 67–122). `now` is the timestamp
captured by `Date.now()` at the start of the call; `signPrim` the imported
ed25519 primitive. Serializes the body, signs the normalized message,
assembles the five headers, and attaches the body string only for
POST/PUT with a truthy body string. -/
def createAuthenticatedRequest (signPrim : SignPrim) (now : Nat)
    (method : String) (path : String) (body : BodyArg) (accountId : String)
    (orderlyKey : String) (orderlyPrivateKey : List Nat) :
    Except String RequestConfig := do
  let timestamp := now
  let bodyString := serializeBody body
  let normalizedMessage := normalizeRequestMessage timestamp
    (jsToUpper method) path bodyString
  let signature ← createOrderlySignature signPrim normalizedMessage
    orderlyPrivateKey
  let headers : List (String × String) :=
    [("Content-Type", getContentType method),
     ("orderly-timestamp", toString timestamp),
     ("orderly-account-id", accountId),
     ("orderly-key", orderlyKey),
     ("orderly-signature", signature)]
  let requestConfig : RequestConfig :=
    { method := jsToUpper method, headers := headers, body := Option.none }
  let requestConfig :=
    if bodyString ≠ "" ∧
        (jsToUpper method = "POST" ∨ jsToUpper method = "PUT")
    then { requestConfig with body := some bodyString }
    else requestConfig
  return requestConfig

/-- The decimal digit characters of `n`, most significant first
(the list underlying `Nat.repr`). -/
def digitsOf (n : Nat) : List Char :=
  if _ : n < 10 then [Nat.digitChar n]
  else digitsOf (n / 10) ++ [Nat.digitChar (n % 10)]
decreasing_by exact Nat.div_lt_self (by omega) (by omega)

/-- Model primitive that echoes the message bytes as the signature
(injective in the message, like deterministic ed25519). -/
def echoSign : SignPrim := fun m _ => Except.ok m

/-- Model primitive returning a fixed 3-byte signature. -/
def constSign : SignPrim := fun _ _ => Except.ok [1, 2, 3]

/-- Model primitive returning a fixed 64-byte signature. -/
def sign64 : SignPrim := fun _ _ => Except.ok (List.range 64)

/-- Model primitive that rejects every key, as the real one does for a
wrong-length private key. -/
def rejectSign : SignPrim := fun _ _ => Except.error "invalid privateKey"

/-- Model verifier matching `echoSign`: a signature is valid for a message
exactly when it equals the bytes of that message. -/
def echoVerify (sig : List Nat) (message : String) (_pub : String) : Bool :=
  sig == strBytes message

/-- The transmitted body string as the specification describes it:
pass-through for a string body, canonical JSON for an object body, empty
when no body is supplied. Used to compare `serializeBody`, which is
translated from the source, against the words of the spec. -/
def specBodyString : BodyArg → String
  | .none => ""
  | .str s => s
  | .obj j => Json.stringify j

/-- Concrete result of a POST call under the fixed-signature model
primitive, used to exercise theorems with a hypothesis. -/
def cfgPost : RequestConfig :=
  { method := "POST",
    headers := [("Content-Type", "application/json"),
                ("orderly-timestamp", "0"),
                ("orderly-account-id", "acct"),
                ("orderly-key", "pub"),
                ("orderly-signature", "AQID")],
    body := some "x" }

/-- Concrete result of a lower-case `"get"` call with a supplied body
under the fixed-signature model primitive. -/
def cfgGet : RequestConfig :=
  { method := "GET",
    headers := [("Content-Type", "application/x-www-form-urlencoded"),
                ("orderly-timestamp", "0"),
                ("orderly-account-id", "acct"),
                ("orderly-key", "pub"),
                ("orderly-signature", "AQID")],
    body := Option.none }

/-- Concrete result of the first of two otherwise-identical calls under
the message-echoing model primitive, timestamp 1. -/
def cfgT1 : RequestConfig :=
  { method := "GET",
    headers := [("Content-Type", "application/x-www-form-urlencoded"),
                ("orderly-timestamp", "1"),
                ("orderly-account-id", "a"),
                ("orderly-key", "k"),
                ("orderly-signature",
                  String.mk (base64urlEncode (strBytes "1GET/p")))],
    body := Option.none }

/-- Concrete result of the second call, timestamp 2. -/
def cfgT2 : RequestConfig :=
  { method := "GET",
    headers := [("Content-Type", "application/x-www-form-urlencoded"),
                ("orderly-timestamp", "2"),
                ("orderly-account-id", "a"),
                ("orderly-key", "k"),
                ("orderly-signature",
                  String.mk (base64urlEncode (strBytes "2GET/p")))],
    body := Option.none }

theorem b64urlIdx_b64urlChar {n : Nat} (h : n < 64) :
    b64urlIdx (b64urlChar n) = n := by
  interval_cases n <;> decide

theorem b64urlChar_ne_pad (n : Nat) : b64urlChar n ≠ '=' := by
  unfold b64urlChar
  by_cases h : n < b64urlAlphabet.length
  · have hmem : b64urlAlphabet.getD n 'A' ∈ b64urlAlphabet := by
      rw [List.getD_eq_getElem _ _ h]
      exact List.getElem_mem h
    intro hEq
    rw [hEq] at hmem
    revert hmem
    decide
  · rw [List.getD_eq_default _ _ (Nat.le_of_not_lt h)]
    decide

theorem base64urlDecode_encode (bs : List Nat) (hb : ∀ b ∈ bs, b < 256) :
    base64urlDecode (base64urlEncode bs) = bs := by
  induction bs using base64urlEncode.induct with
  | case1 => rfl
  | case2 b1 =>
      have h1 : b1 < 256 := hb b1 (by simp)
      simp only [base64urlEncode, base64urlDecode]
      rw [b64urlIdx_b64urlChar (by omega), b64urlIdx_b64urlChar (by omega)]
      simp only [List.cons.injEq, and_true]
      omega
  | case3 b1 b2 =>
      have h1 : b1 < 256 := hb b1 (by simp)
      have h2 : b2 < 256 := hb b2 (by simp)
      simp only [base64urlEncode, base64urlDecode]
      rw [b64urlIdx_b64urlChar (by omega), b64urlIdx_b64urlChar (by omega),
        b64urlIdx_b64urlChar (by omega)]
      simp only [List.cons.injEq, and_true]
      omega
  | case4 b1 b2 b3 rest ih =>
      have h1 : b1 < 256 := hb b1 (by simp)
      have h2 : b2 < 256 := hb b2 (by simp)
      have h3 : b3 < 256 := hb b3 (by simp)
      have hrest : ∀ b ∈ rest, b < 256 := by
        intro b hbm; exact hb b (by simp [hbm])
      simp only [base64urlEncode]
      rw [show ∀ x y z w t, base64urlDecode (x :: y :: z :: w :: t) =
            (b64urlIdx x * 4 + b64urlIdx y / 16) ::
            (b64urlIdx y % 16 * 16 + b64urlIdx z / 4) ::
            (b64urlIdx z % 4 * 64 + b64urlIdx w) ::
            base64urlDecode t from fun _ _ _ _ _ => rfl]
      rw [b64urlIdx_b64urlChar (by omega), b64urlIdx_b64urlChar (by omega),
        b64urlIdx_b64urlChar (by omega), b64urlIdx_b64urlChar (by omega),
        ih hrest]
      simp only [List.cons.injEq, and_true]
      omega

theorem pad_not_mem_base64urlEncode (bs : List Nat) :
    '=' ∉ base64urlEncode bs := by
  induction bs using base64urlEncode.induct with
  | case1 => simp [base64urlEncode]
  | case2 b1 =>
      simp only [base64urlEncode, List.mem_cons, List.not_mem_nil, or_false]
      intro h
      rcases h with h | h <;> exact b64urlChar_ne_pad _ h.symm
  | case3 b1 b2 =>
      simp only [base64urlEncode, List.mem_cons, List.not_mem_nil, or_false]
      intro h
      rcases h with h | h | h <;> exact b64urlChar_ne_pad _ h.symm
  | case4 b1 b2 b3 rest ih =>
      simp only [base64urlEncode, List.mem_cons]
      intro h
      rcases h with h | h | h | h | h
      · exact b64urlChar_ne_pad _ h.symm
      · exact b64urlChar_ne_pad _ h.symm
      · exact b64urlChar_ne_pad _ h.symm
      · exact b64urlChar_ne_pad _ h.symm
      · exact ih h

theorem toDigitsCore_eq_digitsOf (fuel n : Nat) (ds : List Char)
    (h : n < fuel) : Nat.toDigitsCore 10 fuel n ds = digitsOf n ++ ds := by
  induction fuel generalizing n ds with
  | zero => omega
  | succ fuel ih =>
      rw [Nat.toDigitsCore]
      by_cases h10 : n < 10
      · have hz : n / 10 = 0 := Nat.div_eq_of_lt h10
        simp only [hz, if_pos rfl]
        rw [digitsOf]
        simp [h10, Nat.mod_eq_of_lt h10]
      · have hz : ¬ n / 10 = 0 := fun hc => h10 (by omega)
        simp only [if_neg hz]
        rw [digitsOf]
        simp only [dif_neg h10]
        rw [ih (n / 10) _ (by omega)]
        simp [List.append_assoc]

theorem digitChar_toNat_sub {d : Nat} (h : d < 10) :
    (Nat.digitChar d).toNat - 48 = d := by
  interval_cases d <;> decide

theorem foldl_digitsOf (n : Nat) (acc : Nat) :
    List.foldl (fun a c => a * 10 + (c.toNat - 48)) acc (digitsOf n) =
      acc * 10 ^ (digitsOf n).length + n := by
  induction n using digitsOf.induct with
  | case1 n h =>
      rw [digitsOf]
      simp only [h, dif_pos, List.foldl_cons, List.foldl_nil,
        List.length_singleton, pow_one]
      rw [digitChar_toNat_sub h]
  | case2 n h ih =>
      rw [digitsOf]
      simp only [h, dif_neg, not_false_iff, List.foldl_append,
        List.foldl_cons, List.foldl_nil, List.length_append,
        List.length_singleton]
      rw [ih, digitChar_toNat_sub (Nat.mod_lt n (by omega))]
      have hdm : n / 10 * 10 + n % 10 = n := Nat.div_add_mod' n 10
      have hpow : 10 ^ ((digitsOf (n / 10)).length + 1) =
          10 ^ (digitsOf (n / 10)).length * 10 := pow_succ 10 _
      rw [hpow]
      ring_nf
      omega

theorem digitsOf_injective {a b : Nat} (h : digitsOf a = digitsOf b) :
    a = b := by
  have ha := foldl_digitsOf a 0
  have hb := foldl_digitsOf b 0
  rw [h] at ha
  omega

theorem nat_repr_injective {a b : Nat} (h : Nat.repr a = Nat.repr b) :
    a = b := by
  apply digitsOf_injective
  have ha : Nat.repr a = (digitsOf a).asString := by
    show (Nat.toDigits 10 a).asString = _
    rw [Nat.toDigits, toDigitsCore_eq_digitsOf _ _ _ (Nat.lt_succ_self a),
      List.append_nil]
  have hb : Nat.repr b = (digitsOf b).asString := by
    show (Nat.toDigits 10 b).asString = _
    rw [Nat.toDigits, toDigitsCore_eq_digitsOf _ _ _ (Nat.lt_succ_self b),
      List.append_nil]
  rw [ha, hb] at h
  have h2 := congrArg String.data h
  simpa [List.asString] using h2

theorem toString_nat_injective {a b : Nat} (h : toString a = toString b) :
    a = b := nat_repr_injective h

/-! ### Structural lemmas about the builders -/

theorem serializeBody_str (s : String) : serializeBody (BodyArg.str s) = s := by
  by_cases h : s = "" <;> simp [serializeBody, BodyArg.truthy, h]

theorem serializeBody_cases (body : BodyArg) :
    serializeBody body = (match body with
      | BodyArg.none => ""
      | BodyArg.str s => s
      | BodyArg.obj j => Json.stringify j) := by
  cases body with
  | none => rfl
  | str s => exact serializeBody_str s
  | obj j => rfl

/-- Inversion of a successful `createAuthenticatedRequest` call: the result
is built from a successful signature over the canonical message, with the
five headers in order and the body attached exactly for POST/PUT with a
non-empty body string. -/
theorem createAuthenticatedRequest_ok {signPrim : SignPrim} {now : Nat}
    {method path : String} {body : BodyArg} {accountId orderlyKey : String}
    {priv : List Nat} {cfg : RequestConfig}
    (h : createAuthenticatedRequest signPrim now method path body accountId
      orderlyKey priv = .ok cfg) :
    ∃ sig, createOrderlySignature signPrim (signedMessage now method path body)
        priv = Except.ok sig ∧
      cfg = { method := jsToUpper method,
              headers := [("Content-Type", getContentType method),
                          ("orderly-timestamp", toString now),
                          ("orderly-account-id", accountId),
                          ("orderly-key", orderlyKey),
                          ("orderly-signature", sig)],
              body := if serializeBody body ≠ "" ∧
                  (jsToUpper method = "POST" ∨ jsToUpper method = "PUT")
                then some (serializeBody body) else Option.none } := by
  cases hs : createOrderlySignature signPrim
      (signedMessage now method path body) priv with
  | error e =>
      have hs' : createOrderlySignature signPrim (normalizeRequestMessage now
          (jsToUpper method) path (serializeBody body)) priv =
          Except.error e := hs
      simp only [createAuthenticatedRequest, hs', bind, Except.bind] at h
      exact Except.noConfusion h
  | ok sig =>
      refine ⟨sig, rfl, ?_⟩
      have hs' : createOrderlySignature signPrim (normalizeRequestMessage now
          (jsToUpper method) path (serializeBody body)) priv =
          Except.ok sig := hs
      simp only [createAuthenticatedRequest, hs', bind, Except.bind, pure,
        Except.pure, Except.ok.injEq] at h
      rw [← h]
      split <;> rfl

theorem lookup_header_ct (ct ts ai okey sig : String) :
    (([("Content-Type", ct), ("orderly-timestamp", ts),
      ("orderly-account-id", ai), ("orderly-key", okey),
      ("orderly-signature", sig)] : List (String × String)).lookup
      "Content-Type") = some ct := rfl

theorem lookup_header_sig (ct ts ai okey sig : String) :
    (([("Content-Type", ct), ("orderly-timestamp", ts),
      ("orderly-account-id", ai), ("orderly-key", okey),
      ("orderly-signature", sig)] : List (String × String)).lookup
      "orderly-signature") = some sig := rfl

theorem serializeBody_eq_spec (body : BodyArg) :
    serializeBody body = specBodyString body := by
  cases body with
  | none => rfl
  | str s => exact serializeBody_str s
  | obj j => rfl

/-- C1 (counterexample): for the lower-case method `"get"`,
`normalizeRequestMessage` leaves the method as given instead of
upper-casing it, so its output is not the claimed
`timestamp ++ method.toUpperCase() ++ path ++ body`. -/
theorem C1_counterexample :
    normalizeRequestMessage 5 "get" "/p" "b" = "5get/pb" ∧
    normalizeRequestMessage 5 "get" "/p" "b" ≠
      toString 5 ++ jsToUpper "get" ++ "/p" ++ "b" := by
  refine ⟨rfl, ?_⟩
  decide

/-- C1 (amended): `normalizeRequestMessage` returns exactly the decimal
timestamp, the method as given (not upper-cased), the path and the body,
concatenated with no separators; the upper-casing is performed by its
caller, so the canonical message built inside `createAuthenticatedRequest`
does contain the upper-cased method. -/
theorem C1_normalize_concat (ts : Nat) (method path body : String) :
    normalizeRequestMessage ts method path body =
      toString ts ++ method ++ path ++ body ∧
    signedMessage ts method path (BodyArg.str body) =
      toString ts ++ jsToUpper method ++ path ++ body := by
  refine ⟨rfl, ?_⟩
  show normalizeRequestMessage ts (jsToUpper method) path
    (serializeBody (BodyArg.str body)) = _
  rw [serializeBody_str]
  rfl

/-- C2 (counterexample): for a GET call with the non-null body `"x"`, the
body field of the canonical message that gets signed is `"x"`, not the
empty string, while no body is transmitted. -/
theorem C2_counterexample :
    serializeBody (BodyArg.str "x") ≠ "" ∧
    signedMessage 0 "GET" "/p" (BodyArg.str "x") = "0GET/px" ∧
    (createAuthenticatedRequest constSign 0 "GET" "/p" (BodyArg.str "x")
        "acct" "pub" [7]).map (fun c => c.body) = Except.ok Option.none := by
  refine ⟨by decide, by decide, rfl⟩

/-- C2 (amended): the body field of the canonical message that gets signed
is the serialized body string (pass-through for a string body,
`JSON.stringify` for an object body, empty when no body is supplied); for
POST/PUT with a non-empty serialized body the transmitted body is exactly
that string, while for GET/DELETE no body is transmitted even though a
serialization of a supplied body still appears in the signed message. -/
theorem C2_signed_body_field (signPrim : SignPrim) (now : Nat)
    (method path : String) (body : BodyArg) (accountId orderlyKey : String)
    (priv : List Nat) (cfg : RequestConfig)
    (h : createAuthenticatedRequest signPrim now method path body accountId
      orderlyKey priv = .ok cfg) :
    signedMessage now method path body =
      toString now ++ jsToUpper method ++ path ++ serializeBody body ∧
    serializeBody body = specBodyString body ∧
    ((jsToUpper method = "POST" ∨ jsToUpper method = "PUT") →
      serializeBody body ≠ "" → cfg.body = some (serializeBody body)) ∧
    ((jsToUpper method = "GET" ∨ jsToUpper method = "DELETE") →
      cfg.body = Option.none) := by
  obtain ⟨sig, hsig, hcfg⟩ := createAuthenticatedRequest_ok h
  refine ⟨rfl, serializeBody_eq_spec body, ?_, ?_⟩
  · intro hm hne
    rw [hcfg]
    simp only [if_pos (And.intro hne hm)]
  · intro hm
    rw [hcfg]
    rcases hm with hm | hm <;> simp [hm]

/-- C2 (witness): the amended statement exercised on a concrete POST call. -/
theorem C2_witness :
    signedMessage 0 "POST" "/p" (BodyArg.str "x") =
      toString 0 ++ jsToUpper "POST" ++ "/p" ++
        serializeBody (BodyArg.str "x") ∧
    serializeBody (BodyArg.str "x") = specBodyString (BodyArg.str "x") ∧
    ((jsToUpper "POST" = "POST" ∨ jsToUpper "POST" = "PUT") →
      serializeBody (BodyArg.str "x") ≠ "" →
      cfgPost.body = some (serializeBody (BodyArg.str "x"))) ∧
    ((jsToUpper "POST" = "GET" ∨ jsToUpper "POST" = "DELETE") →
      cfgPost.body = Option.none) :=
  C2_signed_body_field constSign 0 "POST" "/p" (BodyArg.str "x") "acct"
    "pub" [7] cfgPost (by rfl)

/-- C3: the Content-Type header placed in the header set is the value
computed by `getContentType`, which is the form-urlencoded value exactly
when the upper-cased method is GET or DELETE and the JSON value otherwise,
irrespective of the body. -/
theorem C3_content_type (signPrim : SignPrim) (now : Nat)
    (method path : String) (body : BodyArg) (accountId orderlyKey : String)
    (priv : List Nat) (cfg : RequestConfig)
    (h : createAuthenticatedRequest signPrim now method path body accountId
      orderlyKey priv = .ok cfg) :
    cfg.headers.lookup "Content-Type" = some (getContentType method) ∧
    (getContentType method = "application/x-www-form-urlencoded" ↔
      (jsToUpper method = "GET" ∨ jsToUpper method = "DELETE")) ∧
    (getContentType method = "application/json" ↔
      ¬ (jsToUpper method = "GET" ∨ jsToUpper method = "DELETE")) := by
  obtain ⟨sig, hsig, hcfg⟩ := createAuthenticatedRequest_ok h
  refine ⟨by rw [hcfg]; exact lookup_header_ct _ _ _ _ _, ?_, ?_⟩ <;>
    by_cases hc : jsToUpper method = "GET" ∨ jsToUpper method = "DELETE"
  · have hg : getContentType method = "application/x-www-form-urlencoded" := by
      simp [getContentType, hc]
    rw [hg]
    exact iff_of_true rfl hc
  · have hg : getContentType method = "application/json" := by
      simp [getContentType, hc]
    rw [hg]
    exact iff_of_false (by decide) hc
  · have hg : getContentType method = "application/x-www-form-urlencoded" := by
      simp [getContentType, hc]
    rw [hg]
    exact iff_of_false (by decide) (by simp [hc])
  · have hg : getContentType method = "application/json" := by
      simp [getContentType, hc]
    rw [hg]
    exact iff_of_true rfl hc

/-- C4: the returned request configuration carries a body field exactly
when the upper-cased method is POST or PUT and the serialized body string
is non-empty; for every other method (GET and DELETE included) no body is
attached, even when a body argument was supplied. -/
theorem C4_body_attachment (signPrim : SignPrim) (now : Nat)
    (method path : String) (body : BodyArg) (accountId orderlyKey : String)
    (priv : List Nat) (cfg : RequestConfig)
    (h : createAuthenticatedRequest signPrim now method path body accountId
      orderlyKey priv = .ok cfg) :
    (cfg.body ≠ Option.none ↔
      ((jsToUpper method = "POST" ∨ jsToUpper method = "PUT") ∧
        serializeBody body ≠ "")) ∧
    (¬ (jsToUpper method = "POST" ∨ jsToUpper method = "PUT") →
      cfg.body = Option.none) ∧
    (cfg.body = Option.none ∨ cfg.body = some (serializeBody body)) := by
  obtain ⟨sig, hsig, hcfg⟩ := createAuthenticatedRequest_ok h
  rw [hcfg]
  by_cases hc : serializeBody body ≠ "" ∧
      (jsToUpper method = "POST" ∨ jsToUpper method = "PUT")
  · simp only [if_pos hc]
    exact ⟨Iff.intro (fun _ => ⟨hc.2, hc.1⟩)
        (fun _ hsome => Option.noConfusion hsome),
      fun hn => absurd hc.2 hn, Or.inr (by trivial)⟩
  · simp only [if_neg hc]
    exact ⟨Iff.intro (fun hne => absurd rfl hne)
        (fun hcontra => absurd ⟨hcontra.2, hcontra.1⟩ hc),
      fun _ => by trivial, Or.inl (by trivial)⟩

theorem lookup_header_ts (ct ts ai okey sig : String) :
    (([("Content-Type", ct), ("orderly-timestamp", ts),
      ("orderly-account-id", ai), ("orderly-key", okey),
      ("orderly-signature", sig)] : List (String × String)).lookup
      "orderly-timestamp") = some ts := rfl

theorem lookup_header_ai (ct ts ai okey sig : String) :
    (([("Content-Type", ct), ("orderly-timestamp", ts),
      ("orderly-account-id", ai), ("orderly-key", okey),
      ("orderly-signature", sig)] : List (String × String)).lookup
      "orderly-account-id") = some ai := rfl

theorem lookup_header_key (ct ts ai okey sig : String) :
    (([("Content-Type", ct), ("orderly-timestamp", ts),
      ("orderly-account-id", ai), ("orderly-key", okey),
      ("orderly-signature", sig)] : List (String × String)).lookup
      "orderly-key") = some okey := rfl

/-- C3 (witness): a lower-case `"get"` call resolves to the
form-urlencoded Content-Type even though a body argument was supplied. -/
theorem C3_witness :
    cfgGet.headers.lookup "Content-Type" = some (getContentType "get") ∧
    (getContentType "get" = "application/x-www-form-urlencoded" ↔
      (jsToUpper "get" = "GET" ∨ jsToUpper "get" = "DELETE")) ∧
    (getContentType "get" = "application/json" ↔
      ¬ (jsToUpper "get" = "GET" ∨ jsToUpper "get" = "DELETE")) :=
  C3_content_type constSign 0 "get" "/p" (BodyArg.str "x") "acct" "pub" [7]
    cfgGet (by rfl)

/-- C4 (witness): a `"get"` call with a supplied body still attaches no
request body. -/
theorem C4_witness :
    (cfgGet.body ≠ Option.none ↔
      ((jsToUpper "get" = "POST" ∨ jsToUpper "get" = "PUT") ∧
        serializeBody (BodyArg.str "x") ≠ "")) ∧
    (¬ (jsToUpper "get" = "POST" ∨ jsToUpper "get" = "PUT") →
      cfgGet.body = Option.none) ∧
    (cfgGet.body = Option.none ∨
      cfgGet.body = some (serializeBody (BodyArg.str "x"))) :=
  C4_body_attachment constSign 0 "get" "/p" (BodyArg.str "x") "acct" "pub"
    [7] cfgGet (by rfl)

/-- C5 (counterexample): the header set produced by a concrete call
consists of Content-Type plus FOUR custom protocol headers
(orderly-timestamp, orderly-account-id, orderly-key, orderly-signature),
not three as claimed. -/
theorem C5_counterexample :
    createAuthenticatedRequest constSign 0 "GET" "/p" BodyArg.none "acct"
      "pub" [7] = Except.ok cfgGet ∧
    cfgGet.headers.map Prod.fst =
      ["Content-Type", "orderly-timestamp", "orderly-account-id",
       "orderly-key", "orderly-signature"] ∧
    ((cfgGet.headers.map Prod.fst).filter
      (fun n => n != "Content-Type")).length = 4 := by
  refine ⟨rfl, rfl, rfl⟩

/-- C5 (amended): the returned header set is the standard Content-Type
header plus exactly four custom headers with fixed protocol names, and the
account id and public key appear in their headers verbatim. -/
theorem C5_header_set (signPrim : SignPrim) (now : Nat)
    (method path : String) (body : BodyArg) (accountId orderlyKey : String)
    (priv : List Nat) (cfg : RequestConfig) (sig : String)
    (h : createAuthenticatedRequest signPrim now method path body accountId
      orderlyKey priv = .ok cfg)
    (hs : createOrderlySignature signPrim (signedMessage now method path body)
      priv = Except.ok sig) :
    cfg.headers = [("Content-Type", getContentType method),
                   ("orderly-timestamp", toString now),
                   ("orderly-account-id", accountId),
                   ("orderly-key", orderlyKey),
                   ("orderly-signature", sig)] ∧
    cfg.headers.lookup "orderly-account-id" = some accountId ∧
    cfg.headers.lookup "orderly-key" = some orderlyKey ∧
    (cfg.headers.map Prod.fst).filter (fun n => n != "Content-Type") =
      ["orderly-timestamp", "orderly-account-id", "orderly-key",
       "orderly-signature"] := by
  obtain ⟨sig', hsig, hcfg⟩ := createAuthenticatedRequest_ok h
  rw [hsig] at hs
  injection hs with hs'
  subst hs'
  rw [hcfg]
  exact ⟨rfl, lookup_header_ai _ _ _ _ _, lookup_header_key _ _ _ _ _, rfl⟩

/-- C5 (witness): the amended header-set statement exercised on a
concrete GET call. -/
theorem C5_witness :
    cfgGet.headers = [("Content-Type", getContentType "GET"),
                      ("orderly-timestamp", toString 0),
                      ("orderly-account-id", "acct"),
                      ("orderly-key", "pub"),
                      ("orderly-signature", "AQID")] ∧
    cfgGet.headers.lookup "orderly-account-id" = some "acct" ∧
    cfgGet.headers.lookup "orderly-key" = some "pub" ∧
    (cfgGet.headers.map Prod.fst).filter (fun n => n != "Content-Type") =
      ["orderly-timestamp", "orderly-account-id", "orderly-key",
       "orderly-signature"] :=
  C5_header_set constSign 0 "GET" "/p" BodyArg.none "acct" "pub" [7]
    cfgGet "AQID" (by rfl) (by rfl)

/-- C6: base64url-decoding the signature string produced by
`createOrderlySignature` yields exactly the raw signature bytes produced
by the ed25519 primitive, and the encoded string contains no `=` padding
characters. -/
theorem C6_signature_roundtrip (signPrim : SignPrim) (message : String)
    (priv sigBytes : List Nat) (_hkey : priv.length = 32)
    (hsig : signPrim (strBytes message) priv = Except.ok sigBytes)
    (_hlen : sigBytes.length = 64) (hb : ∀ b ∈ sigBytes, b < 256) :
    createOrderlySignature signPrim message priv =
      Except.ok (String.mk (base64urlEncode sigBytes)) ∧
    base64urlDecode (String.mk (base64urlEncode sigBytes)).data = sigBytes ∧
    '=' ∉ (String.mk (base64urlEncode sigBytes)).data := by
  refine ⟨?_, ?_, ?_⟩
  · simp only [createOrderlySignature, hsig, bind, Except.bind, pure,
      Except.pure]
  · exact base64urlDecode_encode sigBytes hb
  · exact pad_not_mem_base64urlEncode sigBytes

/-- C6 (witness): the round-trip exercised with a 32-byte key and a
concrete 64-byte signature. -/
theorem C6_witness :
    createOrderlySignature sign64 "m" (List.range 32) =
      Except.ok (String.mk (base64urlEncode (List.range 64))) ∧
    base64urlDecode (String.mk (base64urlEncode (List.range 64))).data =
      List.range 64 ∧
    '=' ∉ (String.mk (base64urlEncode (List.range 64))).data :=
  C6_signature_roundtrip sign64 "m" (List.range 32) (List.range 64)
    (by decide) rfl (by decide) (by decide)

/-- C7: if the signing primitive rejects the private key, both
`createOrderlySignature` and `createAuthenticatedRequest` fail with that
exact error propagated unchanged, producing no header set. -/
theorem C7_error_propagation (signPrim : SignPrim) (now : Nat)
    (method path : String) (body : BodyArg) (accountId orderlyKey : String)
    (priv : List Nat) (e : String)
    (h : signPrim (strBytes (signedMessage now method path body)) priv =
      Except.error e) :
    createOrderlySignature signPrim (signedMessage now method path body)
      priv = Except.error e ∧
    createAuthenticatedRequest signPrim now method path body accountId
      orderlyKey priv = Except.error e := by
  have h1 : createOrderlySignature signPrim
      (signedMessage now method path body) priv = Except.error e := by
    simp only [createOrderlySignature, h, bind, Except.bind]
  refine ⟨h1, ?_⟩
  have h1' : createOrderlySignature signPrim (normalizeRequestMessage now
      (jsToUpper method) path (serializeBody body)) priv =
      Except.error e := h1
  simp only [createAuthenticatedRequest, h1', bind, Except.bind]

/-- C7 (witness): error propagation exercised with a model primitive that
rejects the key. -/
theorem C7_witness :
    createOrderlySignature rejectSign
      (signedMessage 0 "POST" "/p" BodyArg.none) [1] =
      Except.error "invalid privateKey" ∧
    createAuthenticatedRequest rejectSign 0 "POST" "/p" BodyArg.none
      "acct" "pub" [1] = Except.error "invalid privateKey" :=
  C7_error_propagation rejectSign 0 "POST" "/p" BodyArg.none "acct" "pub"
    [1] "invalid privateKey" rfl

/-- C8: the signing pipeline is deterministic — two runs of
`createOrderlySignature` on the same message and the same private key
produce the same signature string (the ed25519 primitive itself is
deterministic, modelled here as a pure function of message and key). -/
theorem C8_deterministic (signPrim : SignPrim) (m1 m2 : String)
    (k1 k2 : List Nat) (hm : m1 = m2) (hk : k1 = k2) :
    createOrderlySignature signPrim m1 k1 =
      createOrderlySignature signPrim m2 k2 := by
  rw [hm, hk]

/-- C8 (witness): determinism exercised on a concrete message and key. -/
theorem C8_witness :
    createOrderlySignature constSign "msg" [1] =
      createOrderlySignature constSign "msg" [1] :=
  C8_deterministic constSign "msg" "msg" [1] [1] rfl rfl

/-- Distinct timestamps yield distinct canonical messages: the decimal
rendering of the timestamp is injective and leads the concatenation. -/
theorem signedMessage_injective_timestamp (t1 t2 : Nat) (method path : String)
    (body : BodyArg) (hne : t1 ≠ t2) :
    signedMessage t1 method path body ≠ signedMessage t2 method path body := by
  intro heq
  apply hne
  apply toString_nat_injective
  apply String.ext
  have h := congrArg String.data heq
  simp only [signedMessage, normalizeRequestMessage, String.data_append] at h
  exact List.append_cancel_right
    (List.append_cancel_right (List.append_cancel_right h))

/-- The base64url rendering of the signature, as attached to the header
set, is injective on byte sequences. -/
theorem base64url_string_injective {s1 s2 : List Nat}
    (hb1 : ∀ b ∈ s1, b < 256) (hb2 : ∀ b ∈ s2, b < 256)
    (h : String.mk (base64urlEncode s1) = String.mk (base64urlEncode s2)) :
    s1 = s2 := by
  have hl : base64urlEncode s1 = base64urlEncode s2 := congrArg String.data h
  have := congrArg base64urlDecode hl
  rwa [base64urlDecode_encode s1 hb1, base64urlDecode_encode s2 hb2] at this

/-- C9: two calls identical except for the captured wall-clock timestamp
sign different canonical messages and carry different signature headers;
under the ed25519 contract hypotheses (distinct signatures for the two
distinct messages, signatures verify against the public key), each
signature is valid for its own canonical message. -/
theorem C9_fresh_timestamps (signPrim : SignPrim)
    (verify : List Nat → String → String → Bool) (pub : String)
    (t1 t2 : Nat) (method path : String) (body : BodyArg)
    (accountId orderlyKey : String) (priv : List Nat)
    (cfg1 cfg2 : RequestConfig) (s1 s2 : List Nat)
    (hne : t1 ≠ t2)
    (h1 : createAuthenticatedRequest signPrim t1 method path body accountId
      orderlyKey priv = Except.ok cfg1)
    (h2 : createAuthenticatedRequest signPrim t2 method path body accountId
      orderlyKey priv = Except.ok cfg2)
    (hs1 : signPrim (strBytes (signedMessage t1 method path body)) priv =
      Except.ok s1)
    (hs2 : signPrim (strBytes (signedMessage t2 method path body)) priv =
      Except.ok s2)
    (hb1 : ∀ b ∈ s1, b < 256) (hb2 : ∀ b ∈ s2, b < 256)
    (hdiff : s1 ≠ s2)
    (hcorrect : ∀ m s, signPrim (strBytes m) priv = Except.ok s →
      verify s m pub = true) :
    signedMessage t1 method path body ≠ signedMessage t2 method path body ∧
    cfg1.headers.lookup "orderly-signature" ≠
      cfg2.headers.lookup "orderly-signature" ∧
    verify s1 (signedMessage t1 method path body) pub = true ∧
    verify s2 (signedMessage t2 method path body) pub = true := by
  obtain ⟨sig1, hsig1, hcfg1⟩ := createAuthenticatedRequest_ok h1
  obtain ⟨sig2, hsig2, hcfg2⟩ := createAuthenticatedRequest_ok h2
  have e1 : createOrderlySignature signPrim (signedMessage t1 method path body)
      priv = Except.ok (String.mk (base64urlEncode s1)) := by
    simp only [createOrderlySignature, hs1, bind, Except.bind, pure,
      Except.pure]
  have e2 : createOrderlySignature signPrim (signedMessage t2 method path body)
      priv = Except.ok (String.mk (base64urlEncode s2)) := by
    simp only [createOrderlySignature, hs2, bind, Except.bind, pure,
      Except.pure]
  rw [e1] at hsig1
  rw [e2] at hsig2
  injection hsig1 with hsig1'
  injection hsig2 with hsig2'
  subst hsig1'
  subst hsig2'
  refine ⟨signedMessage_injective_timestamp t1 t2 method path body hne, ?_,
    hcorrect _ _ hs1, hcorrect _ _ hs2⟩
  rw [hcfg1, hcfg2, lookup_header_sig, lookup_header_sig]
  intro hsome
  injection hsome with hstr
  exact hdiff (base64url_string_injective hb1 hb2 hstr)

/-- C10: a single captured timestamp is used consistently — the
timestamp header holds the decimal rendering of exactly the millisecond
timestamp that leads the canonical message that was signed. -/
theorem C10_single_timestamp (signPrim : SignPrim) (now : Nat)
    (method path : String) (body : BodyArg) (accountId orderlyKey : String)
    (priv : List Nat) (cfg : RequestConfig)
    (h : createAuthenticatedRequest signPrim now method path body accountId
      orderlyKey priv = .ok cfg) :
    cfg.headers.lookup "orderly-timestamp" = some (toString now) ∧
    signedMessage now method path body =
      toString now ++ jsToUpper method ++ path ++ serializeBody body := by
  obtain ⟨sig, hsig, hcfg⟩ := createAuthenticatedRequest_ok h
  rw [hcfg]
  exact ⟨lookup_header_ts _ _ _ _ _, rfl⟩

/-- C10 (witness): the timestamp-consistency statement exercised on a
concrete call. -/
theorem C10_witness :
    cfgPost.headers.lookup "orderly-timestamp" = some (toString 0) ∧
    signedMessage 0 "POST" "/p" (BodyArg.str "x") =
      toString 0 ++ jsToUpper "POST" ++ "/p" ++
        serializeBody (BodyArg.str "x") :=
  C10_single_timestamp constSign 0 "POST" "/p" (BodyArg.str "x") "acct"
    "pub" [7] cfgPost (by rfl)

/-- C9 (witness): two concrete calls at timestamps 1 and 2 exercised
through the theorem with the echoing model primitive and its matching
verifier. -/
theorem C9_witness :
    signedMessage 1 "get" "/p" BodyArg.none ≠
      signedMessage 2 "get" "/p" BodyArg.none ∧
    cfgT1.headers.lookup "orderly-signature" ≠
      cfgT2.headers.lookup "orderly-signature" ∧
    echoVerify (strBytes "1GET/p") (signedMessage 1 "get" "/p" BodyArg.none)
      "PUB" = true ∧
    echoVerify (strBytes "2GET/p") (signedMessage 2 "get" "/p" BodyArg.none)
      "PUB" = true :=
  C9_fresh_timestamps echoSign echoVerify "PUB" 1 2 "get" "/p" BodyArg.none
    "a" "k" [7] cfgT1 cfgT2 (strBytes "1GET/p") (strBytes "2GET/p")
    (by decide) rfl rfl rfl rfl (by decide) (by decide) (by decide)
    (fun m s h => by
      injection h with h'
      rw [← h']
      simp [echoVerify])

end Orderly
